import Mathlib

/-!
Shallow embedding of the Figma tree extraction core of `figma2pdf`.

The embedded source files are:
  * `src/backend/services/figma_service.py` — `_walk_nodes` / `extract_structure`
    (document-scoped component discovery, unconditional text capture);
  * `src/backend/services/figma_parser.py` — `parse_figma_structure` /
    `extract_frames_from_page` / `extract_content_from_page` (the "dynamic"
    parser variant: CANVAS filtering, FRAME-only layers, blank-text filtering,
    tree-scoped components, md5 content fingerprint);
  * `src/backend/main.py` — `extract_figma_key` (the URL → file-key regex).

Python dicts with optional keys are modelled as structures whose optional
fields are `Option`-valued: `none` models an absent key, and `d.get(k, v)`
becomes `Option.getD`.  Python dicts used as maps (the `components` and
`styles` payload entries) are modelled as association lists in insertion
order.  Machine integers do not occur in the extraction logic except inside
the md5 fingerprint, where 32-bit arithmetic is modelled on `Nat` with
explicit `% 2^32`.
-/

/-- Geometry record: the `absoluteBoundingBox` dict of a node.  Each field is
optional (`bounds.get("x")` is `None` when the key is absent). -/
structure BBox where
  x : Option Int
  y : Option Int
  width : Option Int
  height : Option Int
deriving DecidableEq, Repr

/-- The empty bounding-box dict `{}`, produced by
`node.get("absoluteBoundingBox") or {}`. -/
def BBox.empty : BBox := ⟨none, none, none, none⟩

/-- Font metadata of a TEXT node (`node.get("style", {})`); passed through
verbatim by both parser variants, never branched on. -/
structure StyleMeta where
  fontFamily : Option String
  fontSize : Option Int
  fontWeight : Option Int
deriving DecidableEq, Repr

/-- The empty style dict `{}`. -/
def StyleMeta.empty : StyleMeta := ⟨none, none, none⟩

/-- One entry of the top-level `components` map of the file payload:
`{name, description, remote}`. -/
structure CompMeta where
  name : Option String
  description : Option String
  remote : Option Bool
deriving DecidableEq, Repr

/-- One entry of the top-level `styles` map of the file payload; the parser
variant reads only `styleType`. -/
structure StyleData where
  styleType : Option String
deriving DecidableEq, Repr

/-- The scalar fields of a raw Figma tree node (a JSON object).  All fields
the embedded code reads are present; `constraints` is an opaque pass-through
(the code stores `node.get("constraints")` without inspecting it), as is the
per-node `styles` dict. -/
structure NodeData where
  id : Option String
  name : Option String
  type : Option String
  absoluteBoundingBox : Option BBox
  characters : Option String
  style : Option StyleMeta
  visible : Option Bool
  description : Option String
  constraints : Option String
  styles : List (String × String)
  prototypeNode : Option String
  prototypeStartNode : Option String
  prototypeNodeUUID : Option String
deriving DecidableEq, Repr

/-- A node with all optional fields absent (the JSON object `{}` aside from
`children`). -/
def NodeData.empty : NodeData :=
  ⟨none, none, none, none, none, none, none, none, none, [], none, none, none⟩

/-- A raw Figma tree node: scalar data plus the ordered `children` list
(`node.get("children", [])`; an absent key and an empty list coincide). -/
inductive RawNode where
  | mk (data : NodeData) (children : List RawNode)

/-- Scalar fields of a node. -/
def RawNode.data : RawNode → NodeData
  | .mk d _ => d

/-- Ordered children of a node. -/
def RawNode.children : RawNode → List RawNode
  | .mk _ c => c

/-- The `document` entry of the file payload as the extraction code sees it:
it may be absent (`file_json.get("document", {})` then yields `{}`), JSON
null, some non-object value, or an object node. -/
inductive DocumentField where
  | missing
  | null
  | notMapping (raw : String)
  | node (doc : RawNode)

/-- The raw Figma file payload handed to the extractors: `name`,
`lastModified`, `document`, the top-level `components` map and the top-level
`styles` map (both in insertion order). -/
structure FilePayload where
  name : Option String
  lastModified : Option String
  document : DocumentField
  components : List (String × CompMeta)
  styles : List (String × StyleData)

/-- Python truthiness of `node.get(k)` for a string-valued key: `None` and
the empty string are falsy. -/
def pyTruthy : Option String → Bool
  | none => false
  | some s => ¬ s = ""

/-- Python `a or b` on two string-or-None values: `b` when `a` is falsy. -/
def pyOr (a b : Option String) : Option String :=
  if pyTruthy a then a else b

/-- The node-type tuple of `_walk_nodes` guarding the layer emission (note
that the source includes `"PAGE"` as a seventh member). -/
def layerTypeTuple : List String :=
  ["FRAME", "COMPONENT", "INSTANCE", "GROUP", "RECTANGLE", "VECTOR", "PAGE"]

/-- The guard `nodetype in ("FRAME", ..., "PAGE")` of the layer emission of
`_walk_nodes`. -/
def NodeData.isLayerType (d : NodeData) : Bool :=
  layerTypeTuple.contains (d.type.getD "")

/-- The guard `nodetype == "TEXT"` of the text emission. -/
def NodeData.isTextType (d : NodeData) : Bool := d.type.getD "" == "TEXT"

/-- The guard `"prototypeNode" in node or "prototypeStartNode" in node or
node.get("prototypeNodeUUID")` of the interaction emission of
`_walk_nodes`. -/
def NodeData.hasPrototypeKey (d : NodeData) : Bool :=
  d.prototypeNode.isSome || d.prototypeStartNode.isSome ||
    pyTruthy d.prototypeNodeUUID

/-- The guard `node_type == "FRAME"` of the frame emission of
`extract_frames_from_page`. -/
def NodeData.isFrameType (d : NodeData) : Bool := d.type.getD "" == "FRAME"

/-- The guard `node_type in ["COMPONENT", "INSTANCE"]` of the component
emission of `extract_content_from_page`. -/
def NodeData.isComponentType (d : NodeData) : Bool :=
  d.type.getD "" == "COMPONENT" || d.type.getD "" == "INSTANCE"

/-- The guard of the text emission of `extract_content_from_page`: a TEXT
type whose `characters` (defaulting to the empty string) survives
`.strip()`. -/
def NodeData.isKeptTextType (d : NodeData) : Bool :=
  d.isTextType && !((d.characters.getD "").trim == "")

namespace FigmaService

/-- One `pages` entry built by `extract_structure`. -/
structure Page where
  id : Option String
  name : String
deriving DecidableEq, Repr

/-- One `layers` entry built by `_walk_nodes`. -/
structure LayerDescriptor where
  id : Option String
  type : String
  name : String
  page : String
  x : Option Int
  y : Option Int
  width : Option Int
  height : Option Int
  constraints : Option String
  styles : List (String × String)
  visible : Bool
  children_count : Nat
deriving DecidableEq, Repr

/-- One `text_nodes` entry built by `_walk_nodes`. -/
structure TextDescriptor where
  id : Option String
  page : String
  name : String
  characters : String
  style : StyleMeta
  absoluteBoundingBox : BBox
deriving DecidableEq, Repr

/-- One `interactions` entry built by `_walk_nodes`. -/
structure Interaction where
  id : Option String
  name : String
  prototype : Option String
deriving DecidableEq, Repr

/-- One `components` entry built by `extract_structure` from the top-level
`components` map (`document` is the `remote` flag, defaulting to false). -/
structure ComponentDescriptor where
  id : String
  name : Option String
  description : Option String
  document : Bool
deriving DecidableEq, Repr

/-- The three lists `_walk_nodes` appends into through its `collector`
argument. -/
structure Collected where
  layers : List LayerDescriptor
  text_nodes : List TextDescriptor
  interactions : List Interaction
deriving DecidableEq, Repr

/-- List-wise concatenation of collector contents; Python appends in place,
so a node's own emissions precede those of its descendants. -/
def Collected.append (a b : Collected) : Collected :=
  ⟨a.layers ++ b.layers, a.text_nodes ++ b.text_nodes,
   a.interactions ++ b.interactions⟩

/-- The empty collector. -/
def Collected.nil : Collected := ⟨[], [], []⟩

/-- The `layers` entry `_walk_nodes` builds for a structurally significant
node (`children_count` counts immediate children only; `visible` defaults to
true). -/
def layerEntry (d : NodeData) (childCount : Nat) (page_name : String) :
    LayerDescriptor :=
  let abs_bounds := d.absoluteBoundingBox.getD BBox.empty
  { id := d.id
    type := d.type.getD ""
    name := d.name.getD ""
    page := page_name
    x := abs_bounds.x
    y := abs_bounds.y
    width := abs_bounds.width
    height := abs_bounds.height
    constraints := d.constraints
    styles := d.styles
    visible := d.visible.getD true
    children_count := childCount }

/-- The `text_nodes` entry `_walk_nodes` builds for a TEXT node
(`characters` defaults to the empty string when absent; emission is
unconditional, blank text included). -/
def textEntry (d : NodeData) (page_name : String) : TextDescriptor :=
  { id := d.id
    page := page_name
    name := d.name.getD ""
    characters := d.characters.getD ""
    style := d.style.getD StyleMeta.empty
    absoluteBoundingBox := d.absoluteBoundingBox.getD BBox.empty }

/-- The `interactions` entry `_walk_nodes` builds when one of the prototype
keys is present (truthiness of `prototypeNodeUUID` per the source). -/
def interactionEntry (d : NodeData) : Interaction :=
  { id := d.id
    name := d.name.getD ""
    prototype := pyOr d.prototypeStartNode (pyOr d.prototypeNodeUUID d.prototypeNode) }

/-- What `_walk_nodes` appends for the current node itself, before
recursing: a layer entry when the type is in the seven-member tuple, a text
entry when the type is TEXT, an interaction entry when a prototype key is
present. -/
def ownCollected (d : NodeData) (childCount : Nat) (page_name : String) :
    Collected :=
  { layers :=
      if d.isLayerType then [layerEntry d childCount page_name] else []
    text_nodes :=
      if d.isTextType then [textEntry d page_name] else []
    interactions :=
      if d.hasPrototypeKey then [interactionEntry d] else [] }

mutual

/-- `_walk_nodes(node, page_name, collector)`: emit for the node, then
recurse into its children in order. -/
def walk_nodes : RawNode → String → Collected
  | .mk d children, page_name =>
      Collected.append (ownCollected d children.length page_name)
        (walk_forest children page_name)

/-- The `for child in node.get("children", [])` loop of `_walk_nodes`,
and the per-page loop of `extract_structure`. -/
def walk_forest : List RawNode → String → Collected
  | [], _ => Collected.nil
  | n :: rest, page_name =>
      Collected.append (walk_nodes n page_name) (walk_forest rest page_name)

end

/-- One `pages` entry of `extract_structure`: every direct child of
`document` yields one (the source applies no CANVAS type check), with the
name defaulting to `"Page"` only when the `name` key is absent. -/
def pageEntry (pg : RawNode) : Page :=
  { id := pg.data.id, name := pg.data.name.getD "Page" }

/-- One `components` entry of `extract_structure`, from one entry of the
top-level `components` map. -/
def componentEntry (c : String × CompMeta) : ComponentDescriptor :=
  { id := c.1
    name := c.2.name
    description := c.2.description
    document := c.2.remote.getD false }

/-- The result dict of `extract_structure` (its constant `"document": {}`
entry is omitted; it is never filled in by the source). -/
structure Structure where
  file_name : Option String
  last_modified : Option String
  pages : List Page
  layers : List LayerDescriptor
  text_nodes : List TextDescriptor
  components : List ComponentDescriptor
  styles : List (String × StyleData)
  interactions : List Interaction
deriving DecidableEq, Repr

/-- The body of `extract_structure` once `document.get("children", [])` has
been read: one page entry per direct child, a walk of each child's children
with that page's name, then the component map scan. -/
def buildStructure (fj : FilePayload) (doc_children : List RawNode) :
    Structure :=
  { file_name := fj.name
    last_modified := fj.lastModified
    pages := doc_children.map pageEntry
    layers :=
      (doc_children.map fun pg =>
        (walk_forest pg.children (pg.data.name.getD "Page")).layers).flatten
    text_nodes :=
      (doc_children.map fun pg =>
        (walk_forest pg.children (pg.data.name.getD "Page")).text_nodes).flatten
    components := fj.components.map componentEntry
    styles := fj.styles
    interactions :=
      (doc_children.map fun pg =>
        (walk_forest pg.children (pg.data.name.getD "Page")).interactions).flatten }

/-- `extract_structure(file_json)`.  `file_json.get("document", {})` turns an
absent `document` into the empty dict, whose `children` default to `[]`; a
`document` that is `None` or not a dict makes the subsequent
`document.get("children", [])` raise (`AttributeError`), modelled as an
`Except.error`. -/
def extract_structure (file_json : FilePayload) : Except String Structure :=
  match file_json.document with
  | .null => .error "AttributeError"
  | .notMapping _ => .error "AttributeError"
  | .missing => .ok (buildStructure file_json [])
  | .node doc => .ok (buildStructure file_json doc.children)

end FigmaService

namespace MD5

/-! Executable model of `hashlib.md5(...).hexdigest()` (RFC 1321), used by
`parse_figma_structure` for the content fingerprint.  32-bit words are `Nat`
values kept below `2 ^ 32` by explicit `% 4294967296`. -/

/-- The 64 round constants `K[i] = floor(abs(sin(i + 1)) * 2^32)`. -/
def K : List Nat :=
  [0xd76aa478, 0xe8c7b756, 0x242070db, 0xc1bdceee,
   0xf57c0faf, 0x4787c62a, 0xa8304613, 0xfd469501,
   0x698098d8, 0x8b44f7af, 0xffff5bb1, 0x895cd7be,
   0x6b901122, 0xfd987193, 0xa679438e, 0x49b40821,
   0xf61e2562, 0xc040b340, 0x265e5a51, 0xe9b6c7aa,
   0xd62f105d, 0x02441453, 0xd8a1e681, 0xe7d3fbc8,
   0x21e1cde6, 0xc33707d6, 0xf4d50d87, 0x455a14ed,
   0xa9e3e905, 0xfcefa3f8, 0x676f02d9, 0x8d2a4c8a,
   0xfffa3942, 0x8771f681, 0x6d9d6122, 0xfde5380c,
   0xa4beea44, 0x4bdecfa9, 0xf6bb4b60, 0xbebfbc70,
   0x289b7ec6, 0xeaa127fa, 0xd4ef3085, 0x04881d05,
   0xd9d4d039, 0xe6db99e5, 0x1fa27cf8, 0xc4ac5665,
   0xf4292244, 0x432aff97, 0xab9423a7, 0xfc93a039,
   0x655b59c3, 0x8f0ccc92, 0xffeff47d, 0x85845dd1,
   0x6fa87e4f, 0xfe2ce6e0, 0xa3014314, 0x4e0811a1,
   0xf7537e82, 0xbd3af235, 0x2ad7d2bb, 0xeb86d391]

/-- The 64 per-round left-rotation amounts. -/
def S : List Nat :=
  [7, 12, 17, 22, 7, 12, 17, 22, 7, 12, 17, 22, 7, 12, 17, 22,
   5, 9, 14, 20, 5, 9, 14, 20, 5, 9, 14, 20, 5, 9, 14, 20,
   4, 11, 16, 23, 4, 11, 16, 23, 4, 11, 16, 23, 4, 11, 16, 23,
   6, 10, 15, 21, 6, 10, 15, 21, 6, 10, 15, 21, 6, 10, 15, 21]

/-- Left rotation of a 32-bit word. -/
def rotl32 (x n : Nat) : Nat :=
  ((x <<< n) ||| (x >>> (32 - n))) % 4294967296

/-- 32-bit bitwise complement. -/
def compl32 (x : Nat) : Nat := x ^^^ 0xffffffff

/-- Round function of rounds 0–15. -/
def mixF (b c d : Nat) : Nat := (b &&& c) ||| (compl32 b &&& d)

/-- Round function of rounds 16–31. -/
def mixG (b c d : Nat) : Nat := (d &&& b) ||| (compl32 d &&& c)

/-- Round function of rounds 32–47. -/
def mixH (b c d : Nat) : Nat := b ^^^ c ^^^ d

/-- Round function of rounds 48–63. -/
def mixI (b c d : Nat) : Nat := c ^^^ (b ||| compl32 d)

/-- UTF-8 encoding of one code point (`str.encode("utf-8")` per character). -/
def utf8Char (n : Nat) : List Nat :=
  if n < 128 then [n]
  else if n < 2048 then [192 + n / 64, 128 + n % 64]
  else if n < 65536 then [224 + n / 4096, 128 + n / 64 % 64, 128 + n % 64]
  else [240 + n / 262144, 128 + n / 4096 % 64, 128 + n / 64 % 64, 128 + n % 64]

/-- `s.encode("utf-8")` as a byte list. -/
def utf8Bytes (s : String) : List Nat :=
  (s.toList.map fun c => utf8Char c.toNat).flatten

/-- A 64-bit quantity as 8 little-endian bytes. -/
def le8bytes (w : Nat) : List Nat :=
  [w % 256, w / 256 % 256, w / 65536 % 256, w / 16777216 % 256,
   w / 4294967296 % 256, w / 1099511627776 % 256,
   w / 281474976710656 % 256, w / 72057594037927936 % 256]

/-- A 32-bit word as 4 little-endian bytes. -/
def le4bytes (w : Nat) : List Nat :=
  [w % 256, w / 256 % 256, w / 65536 % 256, w / 16777216 % 256]

/-- MD5 padding for a message of `len` bytes: `0x80`, zeros to 56 mod 64,
then the bit length as 8 little-endian bytes. -/
def padding (len : Nat) : List Nat :=
  [128] ++ List.replicate ((119 - len % 64) % 64) 0 ++
    le8bytes (len * 8 % 18446744073709551616)

/-- The `j`-th little-endian 32-bit word of a 64-byte chunk. -/
def wordAt (chunk : List Nat) (j : Nat) : Nat :=
  chunk.getD (4 * j) 0 + 256 * chunk.getD (4 * j + 1) 0 +
    65536 * chunk.getD (4 * j + 2) 0 + 16777216 * chunk.getD (4 * j + 3) 0

/-- One of the 64 rounds on the state `(a, b, c, d)`. -/
def round (M : Nat → Nat) (st : Nat × Nat × Nat × Nat) (i : Nat) :
    Nat × Nat × Nat × Nat :=
  match st with
  | (a, b, c, d) =>
    let fg : Nat × Nat :=
      if i < 16 then (mixF b c d, i)
      else if i < 32 then (mixG b c d, (5 * i + 1) % 16)
      else if i < 48 then (mixH b c d, (3 * i + 5) % 16)
      else (mixI b c d, (7 * i) % 16)
    let tmp := (a + fg.1 + K.getD i 0 + M fg.2) % 4294967296
    (d, (b + rotl32 tmp (S.getD i 0)) % 4294967296, b, c)

/-- Process one 64-byte chunk and add the result into the running state. -/
def processChunk (st : Nat × Nat × Nat × Nat) (chunk : List Nat) :
    Nat × Nat × Nat × Nat :=
  match st, (List.range 64).foldl (round (wordAt chunk)) st with
  | (a0, b0, c0, d0), (a, b, c, d) =>
    ((a0 + a) % 4294967296, (b0 + b) % 4294967296,
     (c0 + c) % 4294967296, (d0 + d) % 4294967296)

/-- The initial state. -/
def initState : Nat × Nat × Nat × Nat :=
  (0x67452301, 0xefcdab89, 0x98badcfe, 0x10325476)

/-- The padded message split into 64-byte chunks. -/
def chunksOf64 (l : List Nat) : List (List Nat) :=
  (List.range (l.length / 64)).map fun i => (l.drop (64 * i)).take 64

/-- The 16-byte MD5 digest of a byte list. -/
def digestBytes (msg : List Nat) : List Nat :=
  match (chunksOf64 (msg ++ padding msg.length)).foldl processChunk initState with
  | (a, b, c, d) => le4bytes a ++ le4bytes b ++ le4bytes c ++ le4bytes d

/-- The sixteen lowercase hexadecimal digits. -/
def hexChars : List Char := "0123456789abcdef".toList

/-- The hexadecimal digit of a value below 16. -/
def hexDigitChar (n : Nat) : Char := hexChars.getD n '0'

/-- Two hex digits of one byte. -/
def byteHex (b : Nat) : List Char := [hexDigitChar (b / 16 % 16), hexDigitChar (b % 16)]

/-- `hashlib.md5(msg).hexdigest()` as a character list (32 hex digits). -/
def hexdigestChars (msg : List Nat) : List Char :=
  ((digestBytes msg).map byteHex).flatten

/-- `hashlib.md5(msg).hexdigest()`. -/
def hexdigest (msg : List Nat) : String := String.mk (hexdigestChars msg)

end MD5

namespace FigmaParsing

/-! Model of `figma_parser.py` (`parse_figma_structure` with its two nested
walks `extract_frames_from_page` and `extract_content_from_page`). -/

/-- One `frames` entry (`extract_frames_from_page`): geometry defaults to 0
when the bounding-box key is absent. -/
structure FrameData where
  name : String
  page : String
  type : String
  width : Int
  height : Int
  x : Int
  y : Int
  children_count : Nat
  visible : Bool
deriving DecidableEq, Repr

/-- One `components` entry (`extract_content_from_page`): this variant scans
the tree for COMPONENT/INSTANCE nodes. -/
structure DynComponent where
  name : String
  type : String
  page : String
  id : String
  description : String
deriving DecidableEq, Repr

/-- One `text_nodes` entry (`extract_content_from_page`): this variant keeps
only text whose stripped content is non-empty. -/
structure DynText where
  content : String
  name : String
  page : String
  style : StyleMeta
deriving DecidableEq, Repr

/-- The `frame_data` dict of `extract_frames_from_page.walk_node`. -/
def frameEntry (d : NodeData) (childCount : Nat) (page_name : String) :
    FrameData :=
  let bounds := d.absoluteBoundingBox.getD BBox.empty
  { name := d.name.getD ""
    page := page_name
    type := d.type.getD ""
    width := bounds.width.getD 0
    height := bounds.height.getD 0
    x := bounds.x.getD 0
    y := bounds.y.getD 0
    children_count := childCount
    visible := d.visible.getD true }

mutual

/-- `walk_node` of `extract_frames_from_page`: collect the node when its
type is FRAME (and only then), then recurse. -/
def frames_walk : RawNode → String → List FrameData
  | .mk d children, page_name =>
      (if d.isFrameType then [frameEntry d children.length page_name]
       else []) ++ frames_forest children page_name

/-- The `for child in node.get("children", [])` loop of `walk_node`. -/
def frames_forest : List RawNode → String → List FrameData
  | [], _ => []
  | n :: rest, p => frames_walk n p ++ frames_forest rest p

end

/-- `extract_frames_from_page(page, page_name)`: the walk starts at the page
node itself. -/
def extract_frames_from_page (page : RawNode) (page_name : String) :
    List FrameData :=
  frames_walk page page_name

/-- The two lists accumulated by `extract_content_from_page`. -/
structure ContentCollected where
  components : List DynComponent
  text_nodes : List DynText
deriving DecidableEq, Repr

/-- List-wise concatenation of content accumulators. -/
def ContentCollected.append (a b : ContentCollected) : ContentCollected :=
  ⟨a.components ++ b.components, a.text_nodes ++ b.text_nodes⟩

/-- What `walk_content` appends for the current node: a component entry for
COMPONENT/INSTANCE types, and a text entry only when
`node.get("characters", "").strip()` is truthy (blank text is dropped by
this variant). -/
def contentOwn (d : NodeData) (page_name : String) : ContentCollected :=
  { components :=
      if d.isComponentType then
        [{ name := d.name.getD "", type := d.type.getD "", page := page_name,
           id := d.id.getD "", description := d.description.getD "" }]
      else []
    text_nodes :=
      if d.isKeptTextType then
        [{ content := d.characters.getD "", name := d.name.getD "",
           page := page_name, style := d.style.getD StyleMeta.empty }]
      else [] }

mutual

/-- `walk_content` of `extract_content_from_page`. -/
def content_walk : RawNode → String → ContentCollected
  | .mk d children, page_name =>
      ContentCollected.append (contentOwn d page_name)
        (content_forest children page_name)

/-- The `for child in node.get("children", [])` loop of `walk_content`. -/
def content_forest : List RawNode → String → ContentCollected
  | [], _ => ⟨[], []⟩
  | n :: rest, p => ContentCollected.append (content_walk n p) (content_forest rest p)

end

/-- `extract_content_from_page(page, page_name)`: the walk starts at the
page node itself. -/
def extract_content_from_page (page : RawNode) (page_name : String) :
    ContentCollected :=
  content_walk page page_name

/-- The result dict of `parse_figma_structure`. -/
structure ParsedStructure where
  file_name : String
  last_modified : String
  content_hash : String
  pages : List String
  frames : List FrameData
  components : List DynComponent
  text_nodes : List DynText
  colors : List String
  total_pages : Nat
  total_frames : Nat
  total_components : Nat
  total_text_nodes : Nat
deriving DecidableEq, Repr

/-- The content fingerprint:
`hashlib.md5(f"{file_name}{last_modified}{len(frames)}{len(components)}".encode()).hexdigest()[:8]`. -/
def fingerprint (file_name last_modified : String) (nframes ncomponents : Nat) :
    String :=
  String.mk ((MD5.hexdigestChars (MD5.utf8Bytes
    (file_name ++ last_modified ++ toString nframes ++ toString ncomponents))).take 8)

/-- The body of `parse_figma_structure` once `document.get("children", [])`
has been read.  Only direct children of type CANVAS contribute: one page name
each (defaulting to `"Page"` only when the `name` key is absent), plus that
page's frames, components and text.  The `colors` set is modelled as the
deduplicated list of FILL style ids (Python's set iteration order is an
in-process-deterministic artifact of the same contents). -/
def buildParsed (fj : FilePayload) (doc_children : List RawNode) :
    ParsedStructure :=
  let canvases := doc_children.filter fun pg => pg.data.type.getD "" = "CANVAS"
  let file_name := fj.name.getD "Untitled"
  let last_modified := fj.lastModified.getD ""
  let pages := canvases.map fun pg => pg.data.name.getD "Page"
  let frames := (canvases.map fun pg =>
    extract_frames_from_page pg (pg.data.name.getD "Page")).flatten
  let components := (canvases.map fun pg =>
    (extract_content_from_page pg (pg.data.name.getD "Page")).components).flatten
  let text_nodes := (canvases.map fun pg =>
    (extract_content_from_page pg (pg.data.name.getD "Page")).text_nodes).flatten
  let colors := ((fj.styles.filter fun st => st.2.styleType = some "FILL").map
    Prod.fst).dedup
  { file_name := file_name
    last_modified := last_modified
    content_hash := fingerprint file_name last_modified frames.length components.length
    pages := pages
    frames := frames
    components := components
    text_nodes := text_nodes
    colors := colors
    total_pages := pages.length
    total_frames := frames.length
    total_components := components.length
    total_text_nodes := text_nodes.length }

/-- `parse_figma_structure(figma_data)`: like `extract_structure`, an absent
`document` silently becomes the empty dict, while a null or non-dict value
raises on `document.get("children", [])`. -/
def parse_figma_structure (figma_data : FilePayload) :
    Except String ParsedStructure :=
  match figma_data.document with
  | .null => .error "AttributeError"
  | .notMapping _ => .error "AttributeError"
  | .missing => .ok (buildParsed figma_data [])
  | .node doc => .ok (buildParsed figma_data doc.children)

end FigmaParsing

namespace MainApi

/-! Model of `extract_figma_key` from `src/backend/main.py`: `re.search`
over the two patterns `figma\.com/(?:file|design|proto)/([a-zA-Z0-9]+)` and
`figma\.com/community/file/(\d+)`, in order, then `key.split(":")[0]`.
`none` models the raised `ValueError`. -/

/-- The character class `[a-zA-Z0-9]` of the key group. -/
def isKeyChar (c : Char) : Bool := c.isAlpha || c.isDigit

/-- Match a literal at the head of the text, returning the remainder. -/
def matchLit : List Char → List Char → Option (List Char)
  | [], s => some s
  | _ :: _, [] => none
  | p :: ps, c :: cs => if c = p then matchLit ps cs else none

/-- Match `lit` directly followed by a non-empty greedy run of characters of
class `cls`, at the head of the text; returns the run (the capture group). -/
def groupAt (lit : List Char) (cls : Char → Bool) (s : List Char) :
    Option (List Char) :=
  match matchLit lit s with
  | none => none
  | some rest =>
    if rest.takeWhile cls = [] then none else some (rest.takeWhile cls)

/-- The first pattern anchored at the head of the text; the alternation
`(?:file|design|proto)` is tried in source order. -/
def pattern1At (s : List Char) : Option (List Char) :=
  match groupAt "figma.com/file/".toList isKeyChar s with
  | some k => some k
  | none =>
    match groupAt "figma.com/design/".toList isKeyChar s with
    | some k => some k
    | none => groupAt "figma.com/proto/".toList isKeyChar s

/-- The second pattern anchored at the head of the text. -/
def pattern2At (s : List Char) : Option (List Char) :=
  groupAt "figma.com/community/file/".toList Char.isDigit s

/-- `re.search`: try the pattern at every position, leftmost match first. -/
def search (f : List Char → Option (List Char)) : List Char → Option (List Char)
  | [] => f []
  | c :: rest =>
    match f (c :: rest) with
    | some k => some k
    | none => search f rest

/-- `key.split(":")[0]`. -/
def splitColonHead (s : String) : String :=
  String.mk (s.toList.takeWhile fun c => ¬ c = ':')

/-- `extract_figma_key(figma_url)`: pattern 1 searched over the whole URL
first, then pattern 2; the matched group with any `:suffix` dropped, or
`none` (the source raises `ValueError`). -/
def extract_figma_key (figma_url : String) : Option String :=
  match search pattern1At figma_url.toList with
  | some k => some (splitColonHead (String.mk k))
  | none =>
    match search pattern2At figma_url.toList with
    | some k => some (splitColonHead (String.mk k))
    | none => none

/-- Spec-side reading of the claim, stated from its words: the URL matches
one of the bare path shapes `/file/<key>`, `/design/<key>`, `/proto/<key>`
(alphanumeric key) or `/community/file/<numeric-key>` — with no requirement
that the shape follow `figma.com`. -/
def claimPathShape (url : String) : Bool :=
  (search (groupAt "/file/".toList isKeyChar) url.toList).isSome ||
  (search (groupAt "/design/".toList isKeyChar) url.toList).isSome ||
  (search (groupAt "/proto/".toList isKeyChar) url.toList).isSome ||
  (search (groupAt "/community/file/".toList Char.isDigit) url.toList).isSome

/-- Declarative characterization of a match of the first pattern: some
suffix position carries `figma.com/<kind>/` followed by at least one
alphanumeric character. -/
def anchoredShape1 (l : List Char) : Prop :=
  ∃ pre kind c post,
    (kind = "figma.com/file/" ∨ kind = "figma.com/design/" ∨
      kind = "figma.com/proto/") ∧
    l = pre ++ kind.toList ++ c :: post ∧ isKeyChar c = true

/-- Declarative characterization of a match of the second pattern. -/
def anchoredShape2 (l : List Char) : Prop :=
  ∃ pre c post,
    l = pre ++ "figma.com/community/file/".toList ++ c :: post ∧
    c.isDigit = true

end MainApi

mutual

/-- The nodes of a subtree in depth-first pre-order: the visit order of the
recursive walks. -/
def preorder : RawNode → List RawNode
  | .mk d children => .mk d children :: preorder_forest children

/-- Pre-order enumeration of a forest, left to right. -/
def preorder_forest : List RawNode → List RawNode
  | [] => []
  | n :: rest => preorder n ++ preorder_forest rest

end

mutual

/-- Height of a node tree: the number of nested stack frames the recursive
walk of `_walk_nodes` uses on it. -/
def depth : RawNode → Nat
  | .mk _ children => 1 + depthForest children

/-- Maximum height over a forest (siblings share one stack frame). -/
def depthForest : List RawNode → Nat
  | [] => 0
  | n :: rest => max (depth n) (depthForest rest)

end

namespace FigmaService

/-- The layer entry of a node, as emitted by `_walk_nodes`. -/
def layerOf (page_name : String) (n : RawNode) : LayerDescriptor :=
  layerEntry n.data n.children.length page_name

/-- The text entry of a node, as emitted by `_walk_nodes`. -/
def textOf (page_name : String) (n : RawNode) : TextDescriptor :=
  textEntry n.data page_name

/-- The interaction entry of a node, as emitted by `_walk_nodes`. -/
def interactionOf (n : RawNode) : Interaction := interactionEntry n.data

/-- Declarative counterpart of the walk: filter the pre-order node list by
each emission guard and build the corresponding entries. -/
def collectedOf (ns : List RawNode) (page_name : String) : Collected :=
  ⟨(ns.filter fun n => n.data.isLayerType).map (layerOf page_name),
   (ns.filter fun n => n.data.isTextType).map (textOf page_name),
   (ns.filter fun n => n.data.hasPrototypeKey).map interactionOf⟩

/-- Sequence-and-concatenate child results; `none` once any child ran out
of fuel. -/
def seqCollected : List (Option Collected) → Option Collected
  | [] => some Collected.nil
  | none :: _ => none
  | some a :: rest =>
    match seqCollected rest with
    | none => none
    | some b => some (Collected.append a b)

/-- Depth-bounded interpreter of `_walk_nodes`: each recursive descent into
a child consumes one unit of fuel (one Python stack frame), and `none`
models running out of stack. -/
def walk_nodes_fuel : Nat → RawNode → String → Option Collected
  | 0, _, _ => none
  | fuel + 1, .mk d children, page_name =>
    (seqCollected (children.map fun c => walk_nodes_fuel fuel c page_name)).map
      (Collected.append (ownCollected d children.length page_name))

end FigmaService

namespace FigmaParsing

/-- The frame entry of a node, as emitted by `extract_frames_from_page`. -/
def frameOf (page_name : String) (n : RawNode) : FrameData :=
  frameEntry n.data n.children.length page_name

/-- The component entry of a node, as emitted by
`extract_content_from_page`. -/
def dynComponentOf (page_name : String) (n : RawNode) : DynComponent :=
  { name := n.data.name.getD "", type := n.data.type.getD "",
    page := page_name, id := n.data.id.getD "",
    description := n.data.description.getD "" }

/-- The text entry of a node, as emitted by `extract_content_from_page`. -/
def dynTextOf (page_name : String) (n : RawNode) : DynText :=
  { content := n.data.characters.getD "", name := n.data.name.getD "",
    page := page_name, style := n.data.style.getD StyleMeta.empty }

/-- Declarative counterpart of `walk_content`. -/
def contentOf (ns : List RawNode) (page_name : String) : ContentCollected :=
  ⟨(ns.filter fun n => n.data.isComponentType).map (dynComponentOf page_name),
   (ns.filter fun n => n.data.isKeptTextType).map (dynTextOf page_name)⟩

end FigmaParsing

namespace FigmaParsing

/-- Declarative counterpart of `extract_frames_from_page.walk_node`. -/
def framesOf (ns : List RawNode) (page_name : String) : List FrameData :=
  (ns.filter fun n => n.data.isFrameType).map (frameOf page_name)

end FigmaParsing


namespace Fixtures

/-- A child node carrying only a `type`. -/
def typed (t : String) (children : List RawNode) : RawNode :=
  RawNode.mk { NodeData.empty with type := some t } children

/-- A document tree containing two COMPONENT and three INSTANCE nodes under
one CANVAS page, separating document-scoped from tree-scoped component
counting. -/
def componentHeavyDoc : RawNode :=
  RawNode.mk NodeData.empty
    [typed "CANVAS"
      [typed "COMPONENT" [], typed "COMPONENT" [],
       typed "INSTANCE" [], typed "INSTANCE" [], typed "INSTANCE" []]]

/-- A page `"Home"` holding one TEXT node whose `characters` is the empty
string and one whose characters are whitespace only. -/
def blankTextDoc : RawNode :=
  RawNode.mk NodeData.empty
    [RawNode.mk { NodeData.empty with name := some "Home", type := some "CANVAS" }
      [RawNode.mk { NodeData.empty with type := some "TEXT", characters := some "" } [],
       RawNode.mk { NodeData.empty with type := some "TEXT", characters := some "   " } []]]

/-- A document with one CANVAS page whose `name` key is present but holds
the empty string. -/
def emptyNamedCanvasDoc : RawNode :=
  RawNode.mk NodeData.empty
    [RawNode.mk { NodeData.empty with type := some "CANVAS", name := some "" } []]

/-- A document with one CANVAS page containing a nested node of type
`"PAGE"`. -/
def pageTypedDoc : RawNode :=
  RawNode.mk NodeData.empty
    [RawNode.mk { NodeData.empty with type := some "CANVAS" } [typed "PAGE" []]]

/-- A payload whose `document` key is absent. -/
def missingDocPayload : FilePayload :=
  ⟨some "f", some "2024", .missing, [], []⟩

/-- The well-formed empty payload: `document = {"children": []}` and
`components = {}`. -/
def emptyDocPayload : FilePayload :=
  ⟨some "f", some "2024", .node (RawNode.mk NodeData.empty []), [], []⟩

/-- A small but non-trivial payload reused by the determinism and
page-ownership witnesses: one page, one invisible frame holding a text node
and a rectangle, one component entry, one FILL style. -/
def richPayload : FilePayload :=
  ⟨some "MyFile", some "2024-01-01",
   .node (RawNode.mk NodeData.empty
     [RawNode.mk { NodeData.empty with name := some "Home", type := some "CANVAS" }
       [RawNode.mk
         { NodeData.empty with
           type := some "FRAME", name := some "Login", visible := some false }
         [typed "TEXT" [], typed "RECTANGLE" []]]]),
   [("c1", ⟨some "Button", none, some true⟩)],
   [("s1", ⟨some "FILL"⟩)]⟩

/-- First fingerprint payload: one frame, zero tree components. -/
def hashPayloadA : FilePayload :=
  ⟨some "MyFile", some "2024-01-01",
   .node (RawNode.mk NodeData.empty
     [RawNode.mk { NodeData.empty with name := some "A", type := some "CANVAS" }
       [RawNode.mk { NodeData.empty with type := some "FRAME", name := some "F1" } []]]),
   [], []⟩

/-- Second fingerprint payload: a different page name, frame name and frame
geometry, but the same file name, modification time, frame count and
component count as `hashPayloadA`. -/
def hashPayloadB : FilePayload :=
  ⟨some "MyFile", some "2024-01-01",
   .node (RawNode.mk NodeData.empty
     [RawNode.mk { NodeData.empty with name := some "B", type := some "CANVAS" }
       [RawNode.mk
         { NodeData.empty with
           type := some "FRAME", name := some "Other",
           absoluteBoundingBox := some ⟨some 5, some 6, some 375, some 812⟩ }
         []]]),
   [], []⟩

end Fixtures

/-! ## Theorems -/

/-- RFC 1321 test vector: the digest of the empty message. -/
example : MD5.hexdigest (MD5.utf8Bytes "") = "d41d8cd98f00b204e9800998ecf8427e" := rfl

/-- RFC 1321 test vector: the digest of `"abc"`. -/
example : MD5.hexdigest (MD5.utf8Bytes "abc") = "900150983cd24fb0d6963f7d28e17f72" := rfl

set_option maxRecDepth 4000 in
/-- RFC 1321 test vector spanning two 64-byte chunks. -/
example :
    MD5.hexdigest (MD5.utf8Bytes
        "12345678901234567890123456789012345678901234567890123456789012345678901234567890")
      = "57edf4a22be3c955ac49da2e2107b67a" := rfl

/-- Mutual induction over the nested node/forest structure, proved once by
strong induction on sizes and reused by every walk lemma below. -/
theorem rawNode_mutual_induction {P : RawNode → Prop} {Q : List RawNode → Prop}
    (h1 : ∀ d children, Q children → P (RawNode.mk d children))
    (h2 : Q [])
    (h3 : ∀ n rest, P n → Q rest → Q (n :: rest)) :
    (∀ n, P n) ∧ (∀ ns, Q ns) := by
  have key : ∀ k, (∀ n : RawNode, sizeOf n ≤ k → P n) ∧
      (∀ ns : List RawNode, sizeOf ns ≤ k → Q ns) := by
    intro k
    induction k with
    | zero =>
      constructor
      · intro n hn
        cases n with | mk d c => simp at hn
      · intro ns hns
        cases ns with
        | nil => exact h2
        | cons n rest => simp at hns
    | succ k ih =>
      constructor
      · intro n hn
        cases n with
        | mk d children =>
          refine h1 d children (ih.2 children ?_)
          have hs : sizeOf (RawNode.mk d children) =
              1 + sizeOf d + sizeOf children := by simp
          omega
      · intro ns hns
        cases ns with
        | nil => exact h2
        | cons n rest =>
          have hs : sizeOf (n :: rest) = 1 + sizeOf n + sizeOf rest := by simp
          exact h3 n rest (ih.1 n (by omega)) (ih.2 rest (by omega))
  exact ⟨fun n => (key (sizeOf n)).1 n le_rfl,
    fun ns => (key (sizeOf ns)).2 ns le_rfl⟩

namespace FigmaService

/-- Walking one more node prepends its own emissions to the enumeration of
the remaining pre-order nodes. -/
theorem collectedOf_cons (n : RawNode) (l : List RawNode) (p : String) :
    collectedOf (n :: l) p =
      Collected.append (ownCollected n.data n.children.length p)
        (collectedOf l p) := by
  cases n with
  | mk d children =>
    simp only [collectedOf, ownCollected, Collected.append, List.filter_cons,
      RawNode.data, RawNode.children,
      apply_ite (List.map (layerOf p)), apply_ite (List.map (textOf p)),
      apply_ite (List.map interactionOf), List.map_cons, List.map_nil]
    split_ifs <;>
      simp [layerOf, textOf, interactionOf, RawNode.data, RawNode.children]

/-- The enumeration distributes over concatenation of forests. -/
theorem collectedOf_append (l1 l2 : List RawNode) (p : String) :
    collectedOf (l1 ++ l2) p =
      Collected.append (collectedOf l1 p) (collectedOf l2 p) := by
  simp [collectedOf, Collected.append, List.filter_append]

/-- The recursive walk agrees with the declarative filter-map over the
pre-order enumeration, for single nodes and for forests. -/
theorem walk_spec :
    (∀ n : RawNode, ∀ p, walk_nodes n p = collectedOf (preorder n) p) ∧
    (∀ ns : List RawNode, ∀ p, walk_forest ns p = collectedOf (preorder_forest ns) p) := by
  refine rawNode_mutual_induction ?_ ?_ ?_
  · intro d children ih p
    have h1 : walk_nodes (RawNode.mk d children) p =
        Collected.append (ownCollected d children.length p)
          (walk_forest children p) := rfl
    have h2 : preorder (RawNode.mk d children) =
        RawNode.mk d children :: preorder_forest children := rfl
    rw [h1, ih p, h2, collectedOf_cons]
    rfl
  · intro p
    rfl
  · intro n rest ihn ihr p
    have h1 : walk_forest (n :: rest) p =
        Collected.append (walk_nodes n p) (walk_forest rest p) := rfl
    have h2 : preorder_forest (n :: rest) =
        preorder n ++ preorder_forest rest := rfl
    rw [h1, ihn p, ihr p, h2, collectedOf_append]

/-- `_walk_nodes` on one node, declaratively. -/
theorem walk_nodes_eq (n : RawNode) (p : String) :
    walk_nodes n p = collectedOf (preorder n) p := walk_spec.1 n p

/-- `_walk_nodes` over a forest, declaratively. -/
theorem walk_forest_eq (ns : List RawNode) (p : String) :
    walk_forest ns p = collectedOf (preorder_forest ns) p := walk_spec.2 ns p

end FigmaService

namespace FigmaParsing

/-- Frame enumeration over a cons cell. -/
theorem framesOf_cons (n : RawNode) (l : List RawNode) (p : String) :
    framesOf (n :: l) p =
      (if n.data.isFrameType then [frameEntry n.data n.children.length p]
       else []) ++ framesOf l p := by
  cases n with
  | mk d children =>
    simp only [framesOf, List.filter_cons, RawNode.data, RawNode.children,
      apply_ite (List.map (frameOf p)), List.map_cons, List.map_nil]
    split_ifs <;> simp [frameOf, RawNode.data, RawNode.children]

/-- Frame enumeration distributes over concatenation. -/
theorem framesOf_append (l1 l2 : List RawNode) (p : String) :
    framesOf (l1 ++ l2) p = framesOf l1 p ++ framesOf l2 p := by
  simp [framesOf, List.filter_append]

/-- The recursive frame walk agrees with the declarative filter-map over the
pre-order enumeration. -/
theorem frames_spec :
    (∀ n : RawNode, ∀ p, frames_walk n p = framesOf (preorder n) p) ∧
    (∀ ns : List RawNode, ∀ p, frames_forest ns p = framesOf (preorder_forest ns) p) := by
  refine rawNode_mutual_induction ?_ ?_ ?_
  · intro d children ih p
    have h1 : frames_walk (RawNode.mk d children) p =
        (if d.isFrameType then [frameEntry d children.length p] else []) ++
          frames_forest children p := rfl
    have h2 : preorder (RawNode.mk d children) =
        RawNode.mk d children :: preorder_forest children := rfl
    rw [h1, ih p, h2, framesOf_cons]
    rfl
  · intro p
    rfl
  · intro n rest ihn ihr p
    have h1 : frames_forest (n :: rest) p =
        frames_walk n p ++ frames_forest rest p := rfl
    have h2 : preorder_forest (n :: rest) =
        preorder n ++ preorder_forest rest := rfl
    rw [h1, ihn p, ihr p, h2, framesOf_append]

/-- `extract_frames_from_page`, declaratively. -/
theorem extract_frames_eq (page : RawNode) (p : String) :
    extract_frames_from_page page p = framesOf (preorder page) p :=
  frames_spec.1 page p

/-- Content enumeration over a cons cell. -/
theorem contentOf_cons (n : RawNode) (l : List RawNode) (p : String) :
    contentOf (n :: l) p =
      ContentCollected.append (contentOwn n.data p) (contentOf l p) := by
  cases n with
  | mk d children =>
    simp only [contentOf, contentOwn, ContentCollected.append, List.filter_cons,
      RawNode.data, RawNode.children,
      apply_ite (List.map (dynComponentOf p)), apply_ite (List.map (dynTextOf p)),
      List.map_cons, List.map_nil]
    split_ifs <;>
      simp [dynComponentOf, dynTextOf, RawNode.data, RawNode.children]

/-- Content enumeration distributes over concatenation. -/
theorem contentOf_append (l1 l2 : List RawNode) (p : String) :
    contentOf (l1 ++ l2) p =
      ContentCollected.append (contentOf l1 p) (contentOf l2 p) := by
  simp [contentOf, ContentCollected.append, List.filter_append]

/-- The recursive content walk agrees with the declarative filter-map over
the pre-order enumeration. -/
theorem content_spec :
    (∀ n : RawNode, ∀ p, content_walk n p = contentOf (preorder n) p) ∧
    (∀ ns : List RawNode, ∀ p, content_forest ns p = contentOf (preorder_forest ns) p) := by
  refine rawNode_mutual_induction ?_ ?_ ?_
  · intro d children ih p
    have h1 : content_walk (RawNode.mk d children) p =
        ContentCollected.append (contentOwn d p) (content_forest children p) := rfl
    have h2 : preorder (RawNode.mk d children) =
        RawNode.mk d children :: preorder_forest children := rfl
    rw [h1, ih p, h2, contentOf_cons]
    rfl
  · intro p
    rfl
  · intro n rest ihn ihr p
    have h1 : content_forest (n :: rest) p =
        ContentCollected.append (content_walk n p) (content_forest rest p) := rfl
    have h2 : preorder_forest (n :: rest) =
        preorder n ++ preorder_forest rest := rfl
    rw [h1, ihn p, ihr p, h2, contentOf_append]

/-- `extract_content_from_page`, declaratively. -/
theorem extract_content_eq (page : RawNode) (p : String) :
    extract_content_from_page page p = contentOf (preorder page) p :=
  content_spec.1 page p

end FigmaParsing

/-- Every member of a forest is at most as deep as the forest. -/
theorem depth_child_le (c : RawNode) (children : List RawNode)
    (h : c ∈ children) : depth c ≤ depthForest children := by
  induction children with
  | nil => cases h
  | cons n rest ih =>
    cases h with
    | head =>
      show depth c ≤ max (depth c) (depthForest rest)
      exact le_max_left _ _
    | tail _ hm =>
      show depth c ≤ max (depth n) (depthForest rest)
      exact le_trans (ih hm) (le_max_right _ _)

namespace FigmaService

/-- Sequencing a list of already-successful results concatenates them. -/
theorem seqCollected_map_some (g : RawNode → Collected) (ns : List RawNode) :
    seqCollected (ns.map fun c => some (g c)) =
      some (ns.foldr (fun c acc => Collected.append (g c) acc) Collected.nil) := by
  induction ns with
  | nil => rfl
  | cons n rest ih => simp [seqCollected, ih]

/-- The forest walk is the fold of the node walk over the children. -/
theorem walk_forest_foldr (ns : List RawNode) (p : String) :
    walk_forest ns p =
      ns.foldr (fun c acc => Collected.append (walk_nodes c p) acc)
        Collected.nil := by
  induction ns with
  | nil => rfl
  | cons n rest ih =>
    have h1 : walk_forest (n :: rest) p =
        Collected.append (walk_nodes n p) (walk_forest rest p) := rfl
    rw [h1, ih]
    rfl

/-- Any fuel bound at least the tree height makes the depth-bounded
interpreter succeed with exactly the unbounded walk's result. -/
theorem walk_nodes_fuel_sufficient :
    ∀ (fuel : Nat) (n : RawNode) (p : String), depth n ≤ fuel →
      walk_nodes_fuel fuel n p = some (walk_nodes n p) := by
  intro fuel
  induction fuel with
  | zero =>
    intro n p h
    cases n with
    | mk d c =>
      have hd : depth (RawNode.mk d c) = 1 + depthForest c := rfl
      omega
  | succ fuel ih =>
    intro n p h
    cases n with
    | mk d children =>
      have hd : depth (RawNode.mk d children) = 1 + depthForest children := rfl
      have hch : ∀ c ∈ children, depth c ≤ fuel := fun c hc =>
        le_trans (depth_child_le c children hc) (by omega)
      have h1 : walk_nodes_fuel (fuel + 1) (RawNode.mk d children) p =
          (seqCollected (children.map fun c => walk_nodes_fuel fuel c p)).map
            (Collected.append (ownCollected d children.length p)) := rfl
      have h2 : children.map (fun c => walk_nodes_fuel fuel c p) =
          children.map (fun c => some (walk_nodes c p)) :=
        List.map_congr_left fun c hc => ih c p (hch c hc)
      rw [h1, h2, seqCollected_map_some, Option.map_some', ← walk_forest_foldr]
      rfl

end FigmaService

/-- On a payload whose `document` is a mapping, `extract_structure` returns
the built structure. -/
theorem extract_structure_node (nm lm : Option String) (doc : RawNode)
    (comps : List (String × CompMeta)) (sts : List (String × StyleData)) :
    FigmaService.extract_structure ⟨nm, lm, .node doc, comps, sts⟩ =
      .ok (FigmaService.buildStructure ⟨nm, lm, .node doc, comps, sts⟩
        doc.children) := rfl

/-- On a payload whose `document` is a mapping, `parse_figma_structure`
returns the built structure. -/
theorem parse_structure_node (nm lm : Option String) (doc : RawNode)
    (comps : List (String × CompMeta)) (sts : List (String × StyleData)) :
    FigmaParsing.parse_figma_structure ⟨nm, lm, .node doc, comps, sts⟩ =
      .ok (FigmaParsing.buildParsed ⟨nm, lm, .node doc, comps, sts⟩
        doc.children) := rfl

/-- C1: component discovery of `extract_structure` is document-scoped.  For
every file payload whose `document` is a mapping, the `components` list is
exactly the image of the top-level `components` map — id is the map key,
name and description come from the metadata, and the `document` flag is the
`remote` field defaulting to false — so its length equals the size of that
map for every document tree `d` (the right-hand sides never mention `d`);
concretely, a tree containing two COMPONENT and three INSTANCE nodes paired
with a one-entry map still yields exactly one descriptor. -/
theorem c1_components_document_scoped :
    (∀ (nm lm : Option String) (d : RawNode) (comps : List (String × CompMeta))
        (sts : List (String × StyleData)),
      (FigmaService.extract_structure ⟨nm, lm, .node d, comps, sts⟩).map
          (fun s => s.components)
        = .ok (comps.map FigmaService.componentEntry) ∧
      (FigmaService.extract_structure ⟨nm, lm, .node d, comps, sts⟩).map
          (fun s => s.components.length)
        = .ok comps.length) ∧
    (FigmaService.extract_structure ⟨none, none, .node Fixtures.componentHeavyDoc,
        [("k1", ⟨some "Button", some "Primary button", none⟩)], []⟩).map
        (fun s => s.components)
      = .ok [{ id := "k1", name := some "Button",
               description := some "Primary button", document := false }] := by
  refine ⟨fun nm lm d comps sts => ⟨rfl, ?_⟩, rfl⟩
  show Except.ok (comps.map FigmaService.componentEntry).length
    = Except.ok comps.length
  rw [List.length_map]

/-- C2: `_walk_nodes` emits one TextDescriptor for every TEXT node of every
page subtree, unconditionally: the `text_nodes` list equals the TEXT-filtered
pre-order enumeration of each page's children in order, with each entry's
`characters` equal to the node's `characters` defaulting to the empty
string; concretely, a page holding one TEXT node with empty characters and
one with whitespace-only characters yields exactly those two descriptors. -/
theorem c2_text_emitted_unconditionally :
    (∀ (nm lm : Option String) (d : RawNode) (comps : List (String × CompMeta))
        (sts : List (String × StyleData)),
      (FigmaService.extract_structure ⟨nm, lm, .node d, comps, sts⟩).map
          (fun s => s.text_nodes)
        = .ok ((d.children.map fun pg =>
            ((preorder_forest pg.children).filter fun n => n.data.isTextType).map
              (FigmaService.textOf (pg.data.name.getD "Page"))).flatten)) ∧
    (∀ (p : String) (n : RawNode),
      (FigmaService.textOf p n).characters = n.data.characters.getD "") ∧
    ((FigmaService.extract_structure
        ⟨none, none, .node Fixtures.blankTextDoc, [], []⟩).map
        (fun s => s.text_nodes.map fun t => (t.page, t.characters))
      = .ok [("Home", ""), ("Home", "   ")]) := by
  refine ⟨fun nm lm d comps sts => ?_, fun p n => rfl, rfl⟩
  show Except.ok ((d.children.map fun pg =>
      (FigmaService.walk_forest pg.children (pg.data.name.getD "Page")).text_nodes).flatten)
    = _
  simp only [FigmaService.walk_forest_eq, FigmaService.collectedOf]

/-- C5 counterexample: a payload with no `document` key at all returns a
normal empty structure instead of raising, refuting the claimed
"raises if and only if `document` is missing, null, or not a mapping". -/
theorem c5_counterexample_missing_document_is_ok :
    (FigmaService.extract_structure Fixtures.missingDocPayload).map
        (fun s => (s.pages.length, s.layers.length, s.text_nodes.length))
      = .ok (0, 0, 0) := rfl

/-- C5 (amended): `extract_structure` raises if and only if the `document`
field is present and is null or not a mapping; an absent `document` key is
silently treated as the empty document (returning a structure with no pages,
layers or text), and the well-formed empty input `document = {"children":
[]}` with an empty `components` map returns zero pages, zero layers, zero
text nodes and zero components rather than an error. -/
theorem c5_error_iff_document_not_mapping :
    (∀ p : FilePayload,
      (∃ e, FigmaService.extract_structure p = .error e) ↔
        (p.document = .null ∨ ∃ r, p.document = .notMapping r)) ∧
    (FigmaService.extract_structure Fixtures.emptyDocPayload).map
        (fun s => (s.pages, s.layers, s.text_nodes, s.components))
      = .ok ([], [], [], []) := by
  refine ⟨fun p => ⟨?_, ?_⟩, rfl⟩
  · rintro ⟨e, he⟩
    cases hd : p.document with
    | missing => rw [FigmaService.extract_structure, hd] at he; cases he
    | null => exact Or.inl rfl
    | notMapping r => exact Or.inr ⟨r, rfl⟩
    | node doc => rw [FigmaService.extract_structure, hd] at he; cases he
  · rintro (hd | ⟨r, hd⟩) <;>
      exact ⟨"AttributeError", by rw [FigmaService.extract_structure, hd]⟩

/-- C10: termination of the recursive traversal — the depth-bounded
interpreter of `_walk_nodes`, which consumes one unit of fuel per descent
into a child, succeeds on every finite tree as soon as the fuel reaches the
tree height, returning exactly the unbounded walk's result; consequently
`extract_structure` is total on payloads whose `document` is a mapping of
any depth. -/
theorem c10_walk_terminates :
    (∀ (n : RawNode) (p : String),
      FigmaService.walk_nodes_fuel (depth n) n p
        = some (FigmaService.walk_nodes n p)) ∧
    (∀ (nm lm : Option String) (d : RawNode) (comps : List (String × CompMeta))
        (sts : List (String × StyleData)),
      ∃ s, FigmaService.extract_structure ⟨nm, lm, .node d, comps, sts⟩
        = .ok s) :=
  ⟨fun n p => FigmaService.walk_nodes_fuel_sufficient (depth n) n p le_rfl,
   fun _ _ _ _ _ => ⟨_, rfl⟩⟩

/-- C3 counterexample: a document whose single direct child is a CANVAS with
`name` present but equal to `""` yields the page name `""`, not the claimed
default `"Page"` — the source substitutes the default only when the name key
is absent. -/
theorem c3_counterexample_empty_name_kept :
    (FigmaParsing.parse_figma_structure
        ⟨none, none, .node Fixtures.emptyNamedCanvasDoc, [], []⟩).map
        (fun s => s.pages)
      = .ok [""] ∧ ("" : String) ≠ "Page" :=
  ⟨rfl, by decide⟩

/-- C3 (amended): for every document that is a mapping,
`parse_figma_structure` returns exactly one page per direct child of type
CANVAS, in document order, named by the node's `name` with `"Page"`
substituted only when the name key is absent (a present-but-empty name is
kept verbatim); direct children of any other type produce no page, and
`total_pages` is the number of CANVAS children. -/
theorem c3_pages_one_per_canvas_child :
    ∀ (nm lm : Option String) (d : RawNode) (comps : List (String × CompMeta))
      (sts : List (String × StyleData)),
      (FigmaParsing.parse_figma_structure ⟨nm, lm, .node d, comps, sts⟩).map
          (fun s => s.pages)
        = .ok ((d.children.filter fun pg => pg.data.type.getD "" = "CANVAS").map
            fun pg => pg.data.name.getD "Page") ∧
      (FigmaParsing.parse_figma_structure ⟨nm, lm, .node d, comps, sts⟩).map
          (fun s => s.total_pages)
        = .ok (d.children.filter fun pg => pg.data.type.getD "" = "CANVAS").length := by
  intro nm lm d comps sts
  refine ⟨rfl, ?_⟩
  show Except.ok ((d.children.filter fun pg =>
      pg.data.type.getD "" = "CANVAS").map fun pg => pg.data.name.getD "Page").length = _
  rw [List.length_map]

/-- C4 counterexample: a node of type `"PAGE"` nested inside a page produces
a LayerDescriptor even though `"PAGE"` is not one of the six types named by
the claim — the source's tuple has `"PAGE"` as a seventh member. -/
theorem c4_counterexample_page_type_collected :
    (FigmaService.extract_structure
        ⟨none, none, .node Fixtures.pageTypedDoc, [], []⟩).map
        (fun s => s.layers.map fun l => l.type)
      = .ok ["PAGE"] ∧
    "PAGE" ∉ ["FRAME", "COMPONENT", "INSTANCE", "GROUP", "RECTANGLE", "VECTOR"] :=
  ⟨rfl, by decide⟩

/-- C4 (amended): for every node whose type is one of FRAME, COMPONENT,
INSTANCE, GROUP, RECTANGLE, VECTOR — or the seventh tuple member PAGE — at
any depth of any page subtree, and for no other node, `extract_structure`
emits exactly one LayerDescriptor: the `layers` list equals the pre-order
enumeration of each page's children filtered by that seven-type guard, in
order; each emitted layer records `children_count` equal to the node's
immediate child count and `visible` defaulting to true when absent;
concretely, a frame with `visible: false` is still collected. -/
theorem c4_layers_filter_preorder :
    (∀ (nm lm : Option String) (d : RawNode) (comps : List (String × CompMeta))
        (sts : List (String × StyleData)),
      (FigmaService.extract_structure ⟨nm, lm, .node d, comps, sts⟩).map
          (fun s => s.layers)
        = .ok ((d.children.map fun pg =>
            ((preorder_forest pg.children).filter fun n => n.data.isLayerType).map
              (FigmaService.layerOf (pg.data.name.getD "Page"))).flatten)) ∧
    (∀ (p : String) (n : RawNode),
      (FigmaService.layerOf p n).children_count = n.children.length ∧
      (FigmaService.layerOf p n).visible = n.data.visible.getD true ∧
      (FigmaService.layerOf p n).type = n.data.type.getD "") ∧
    ((FigmaService.extract_structure Fixtures.richPayload).map
        (fun s => s.layers.map fun l => (l.type, l.visible, l.children_count))
      = .ok [("FRAME", false, 2), ("RECTANGLE", true, 0)]) := by
  refine ⟨fun nm lm d comps sts => ?_, fun p n => ⟨rfl, rfl, rfl⟩, rfl⟩
  show Except.ok ((d.children.map fun pg =>
      (FigmaService.walk_forest pg.children (pg.data.name.getD "Page")).layers).flatten)
    = _
  simp only [FigmaService.walk_forest_eq, FigmaService.collectedOf]

/-- Every layer collected while walking a forest under a page name carries
that page name. -/
theorem mem_walk_forest_layers_page (ns : List RawNode) (p : String)
    (l : FigmaService.LayerDescriptor)
    (hl : l ∈ (FigmaService.walk_forest ns p).layers) : l.page = p := by
  rw [FigmaService.walk_forest_eq] at hl
  simp only [FigmaService.collectedOf] at hl
  rw [List.mem_map] at hl
  obtain ⟨n, -, rfl⟩ := hl
  rfl

/-- Every text descriptor collected while walking a forest under a page
name carries that page name. -/
theorem mem_walk_forest_texts_page (ns : List RawNode) (p : String)
    (t : FigmaService.TextDescriptor)
    (ht : t ∈ (FigmaService.walk_forest ns p).text_nodes) : t.page = p := by
  rw [FigmaService.walk_forest_eq] at ht
  simp only [FigmaService.collectedOf] at ht
  rw [List.mem_map] at ht
  obtain ⟨n, -, rfl⟩ := ht
  rfl

/-- C9: page-ownership invariant — in every structure returned by
`extract_structure`, the `page` field of every LayerDescriptor and of every
TextDescriptor equals the `name` of some record in the same output's
`pages` list. -/
theorem c9_page_ownership :
    ∀ (nm lm : Option String) (d : RawNode) (comps : List (String × CompMeta))
      (sts : List (String × StyleData)),
      (FigmaService.extract_structure ⟨nm, lm, .node d, comps, sts⟩).map
          (fun s =>
            (s.layers.all fun l => s.pages.any fun pg => pg.name == l.page) &&
            (s.text_nodes.all fun t => s.pages.any fun pg => pg.name == t.page))
        = .ok true := by
  intro nm lm d comps sts
  refine congrArg Except.ok ?_
  rw [Bool.and_eq_true]
  constructor
  · rw [List.all_eq_true]
    intro l hl
    simp only [FigmaService.buildStructure, List.mem_flatten, List.mem_map] at hl
    obtain ⟨ls, ⟨pg, hpg, rfl⟩, hlin⟩ := hl
    have hp := mem_walk_forest_layers_page _ _ _ hlin
    rw [List.any_eq_true]
    refine ⟨FigmaService.pageEntry pg, ?_, ?_⟩
    · simp only [FigmaService.buildStructure]
      exact List.mem_map_of_mem _ hpg
    · simp [FigmaService.pageEntry, hp]
  · rw [List.all_eq_true]
    intro t ht
    simp only [FigmaService.buildStructure, List.mem_flatten, List.mem_map] at ht
    obtain ⟨ts, ⟨pg, hpg, rfl⟩, htin⟩ := ht
    have hp := mem_walk_forest_texts_page _ _ _ htin
    rw [List.any_eq_true]
    refine ⟨FigmaService.pageEntry pg, ?_, ?_⟩
    · simp only [FigmaService.buildStructure]
      exact List.mem_map_of_mem _ hpg
    · simp [FigmaService.pageEntry, hp]

/-- C7: determinism and idempotence — both embedded extractors are pure
functions of the payload: deep-equal inputs give field-for-field identical
results (whole-structure equality for both variants, and in particular an
identical content fingerprint). -/
theorem c7_extract_deterministic (p q : FilePayload) (h : p = q) :
    FigmaService.extract_structure p = FigmaService.extract_structure q ∧
    FigmaParsing.parse_figma_structure p = FigmaParsing.parse_figma_structure q ∧
    (FigmaParsing.parse_figma_structure p).map (fun s => s.content_hash)
      = (FigmaParsing.parse_figma_structure q).map (fun s => s.content_hash) := by
  subst h
  exact ⟨rfl, rfl, rfl⟩

/-- C7 witness: the determinism theorem applied to a concrete non-trivial
payload. -/
theorem c7_extract_deterministic_witness :
    FigmaService.extract_structure Fixtures.richPayload
      = FigmaService.extract_structure Fixtures.richPayload ∧
    FigmaParsing.parse_figma_structure Fixtures.richPayload
      = FigmaParsing.parse_figma_structure Fixtures.richPayload ∧
    (FigmaParsing.parse_figma_structure Fixtures.richPayload).map
        (fun s => s.content_hash)
      = (FigmaParsing.parse_figma_structure Fixtures.richPayload).map
        (fun s => s.content_hash) :=
  c7_extract_deterministic Fixtures.richPayload Fixtures.richPayload rfl

/-- Whenever `parse_figma_structure` succeeds, the returned `content_hash`
is the fingerprint of exactly the returned (file name, last-modified, frame
count, component count) quadruple. -/
theorem parse_ok_content_hash (p : FilePayload)
    (s : FigmaParsing.ParsedStructure)
    (hp : FigmaParsing.parse_figma_structure p = .ok s) :
    s.content_hash = FigmaParsing.fingerprint s.file_name s.last_modified
      s.total_frames s.total_components := by
  cases hd : p.document with
  | missing =>
    rw [FigmaParsing.parse_figma_structure, hd] at hp
    injection hp with h
    subst h
    rfl
  | null => rw [FigmaParsing.parse_figma_structure, hd] at hp; cases hp
  | notMapping r => rw [FigmaParsing.parse_figma_structure, hd] at hp; cases hp
  | node doc =>
    rw [FigmaParsing.parse_figma_structure, hd] at hp
    injection hp with h
    subst h
    rfl

/-- One byte renders as exactly two hex characters. -/
theorem byteHex_length (b : Nat) : (MD5.byteHex b).length = 2 := rfl

/-- Rendering a byte list doubles its length. -/
theorem flatten_map_byteHex_length (l : List Nat) :
    ((l.map MD5.byteHex).flatten).length = 2 * l.length := by
  induction l with
  | nil => rfl
  | cons b rest ih =>
    simp only [List.map_cons, List.flatten_cons, List.length_append, ih,
      byteHex_length, List.length_cons]
    omega

/-- The MD5 digest always holds 16 bytes. -/
theorem digestBytes_length (msg : List Nat) : (MD5.digestBytes msg).length = 16 := by
  unfold MD5.digestBytes
  obtain ⟨a, b, c, d⟩ :=
    (MD5.chunksOf64 (msg ++ MD5.padding msg.length)).foldl MD5.processChunk
      MD5.initState
  rfl

/-- The MD5 hexdigest always holds 32 characters. -/
theorem hexdigestChars_length (msg : List Nat) :
    (MD5.hexdigestChars msg).length = 32 := by
  unfold MD5.hexdigestChars
  rw [flatten_map_byteHex_length, digestBytes_length]

/-- The fingerprint is always exactly 8 characters wide. -/
theorem fingerprint_length (fn lm : String) (a b : Nat) :
    (FigmaParsing.fingerprint fn lm a b).length = 8 := by
  unfold FigmaParsing.fingerprint
  show (List.take 8 (MD5.hexdigestChars (MD5.utf8Bytes
    (fn ++ lm ++ toString a ++ toString b)))).length = 8
  rw [List.length_take, hexdigestChars_length]
  rfl

/-- Every character the hex renderer can produce is a hex digit. -/
theorem hexDigitChar_mem (n : Nat) : MD5.hexDigitChar n ∈ MD5.hexChars := by
  unfold MD5.hexDigitChar
  by_cases h : n < 16
  · interval_cases n <;> decide
  · rw [List.getD_eq_default]
    · decide
    · have h16 : MD5.hexChars.length = 16 := rfl
      omega

/-- Every character of an MD5 hexdigest is a hex digit. -/
theorem mem_hexdigestChars_hex (msg : List Nat) (c : Char)
    (hc : c ∈ MD5.hexdigestChars msg) : c ∈ MD5.hexChars := by
  unfold MD5.hexdigestChars at hc
  rw [List.mem_flatten] at hc
  obtain ⟨l, hl, hcl⟩ := hc
  rw [List.mem_map] at hl
  obtain ⟨b, -, rfl⟩ := hl
  simp only [MD5.byteHex, List.mem_cons, List.not_mem_nil, or_false] at hcl
  rcases hcl with rfl | rfl <;> exact hexDigitChar_mem _

/-- Every character of a fingerprint is a hex digit. -/
theorem fingerprint_mem_hex (fn lm : String) (a b : Nat) (c : Char)
    (hc : c ∈ (FigmaParsing.fingerprint fn lm a b).data) :
    c ∈ MD5.hexChars := by
  unfold FigmaParsing.fingerprint at hc
  have hc2 : c ∈ (MD5.hexdigestChars (MD5.utf8Bytes
      (fn ++ lm ++ toString a ++ toString b))).take 8 := hc
  exact mem_hexdigestChars_hex _ _ (List.mem_of_mem_take hc2)

/-- C8: the content fingerprint of `parse_figma_structure` is a pure
function of exactly the quadruple (file name, last-modified, number of
frame records, number of component records): any two successful parses
agreeing on those four output fields return the same `content_hash`; and
the hash is a fixed-width string of exactly 8 characters (within the stated
8–12 range), each a lowercase hexadecimal digit. -/
theorem c8_fingerprint_pure_function (p q : FilePayload)
    (s t : FigmaParsing.ParsedStructure)
    (hp : FigmaParsing.parse_figma_structure p = .ok s)
    (hq : FigmaParsing.parse_figma_structure q = .ok t)
    (h1 : s.file_name = t.file_name) (h2 : s.last_modified = t.last_modified)
    (h3 : s.total_frames = t.total_frames)
    (h4 : s.total_components = t.total_components) :
    s.content_hash = t.content_hash ∧
    s.content_hash.length = 8 ∧
    (∀ c ∈ s.content_hash.data, c ∈ MD5.hexChars) := by
  have hs := parse_ok_content_hash p s hp
  have ht := parse_ok_content_hash q t hq
  refine ⟨?_, ?_, ?_⟩
  · rw [hs, ht, h1, h2, h3, h4]
  · rw [hs]
    exact fingerprint_length _ _ _ _
  · intro c hc
    rw [hs] at hc
    exact fingerprint_mem_hex _ _ _ _ c hc

/-- C8 witness: two concrete payloads with different page names, frame
names and geometry, but identical (name, lastModified, frame count,
component count) quadruples, get the same 8-character fingerprint. -/
theorem c8_fingerprint_pure_function_witness :
    ∃ s t : FigmaParsing.ParsedStructure,
      FigmaParsing.parse_figma_structure Fixtures.hashPayloadA = .ok s ∧
      FigmaParsing.parse_figma_structure Fixtures.hashPayloadB = .ok t ∧
      s.content_hash = t.content_hash ∧ s.content_hash.length = 8 :=
  ⟨_, _, rfl, rfl,
   (c8_fingerprint_pure_function Fixtures.hashPayloadA Fixtures.hashPayloadB _ _
      rfl rfl rfl rfl rfl rfl).1,
   (c8_fingerprint_pure_function Fixtures.hashPayloadA Fixtures.hashPayloadB _ _
      rfl rfl rfl rfl rfl rfl).2.1⟩

namespace MainApi

/-- Literal matching succeeds exactly on an exact-prefix decomposition. -/
theorem matchLit_eq_some_iff (p s r : List Char) :
    matchLit p s = some r ↔ s = p ++ r := by
  induction p generalizing s with
  | nil => simp [matchLit]
  | cons a ps ih =>
    cases s with
    | nil => simp [matchLit]
    | cons c cs =>
      by_cases h : c = a
      · subst h
        simp [matchLit, ih]
      · simp [matchLit, h]

/-- The anchored group matcher succeeds exactly when the text starts with
the literal followed by at least one character of the class. -/
theorem groupAt_isSome_iff (lit : List Char) (cls : Char → Bool) (s : List Char) :
    (groupAt lit cls s).isSome = true ↔
      ∃ c r, s = lit ++ c :: r ∧ cls c = true := by
  constructor
  · intro h
    unfold groupAt at h
    cases hm : matchLit lit s with
    | none => rw [hm] at h; cases h
    | some rest =>
      rw [hm] at h
      rw [matchLit_eq_some_iff] at hm
      subst hm
      cases rest with
      | nil => simp at h
      | cons c rs =>
        by_cases hc : cls c = true
        · exact ⟨c, rs, rfl, hc⟩
        · replace h : (if List.takeWhile cls (c :: rs) = [] then none
              else some (List.takeWhile cls (c :: rs))).isSome = true := h
          rw [List.takeWhile_cons, if_neg hc] at h
          simp at h
  · rintro ⟨c, r, rfl, hc⟩
    unfold groupAt
    rw [show matchLit lit (lit ++ c :: r) = some (c :: r) from
      (matchLit_eq_some_iff lit (lit ++ c :: r) (c :: r)).mpr rfl]
    simp [List.takeWhile_cons, hc]

/-- The leftmost search succeeds exactly when the pattern matches at some
position. -/
theorem search_isSome_iff (f : List Char → Option (List Char)) (s : List Char) :
    (search f s).isSome = true ↔
      ∃ pre suf, s = pre ++ suf ∧ (f suf).isSome = true := by
  induction s with
  | nil =>
    constructor
    · intro h
      exact ⟨[], [], rfl, h⟩
    · rintro ⟨pre, suf, heq, hf⟩
      obtain ⟨rfl, rfl⟩ := List.append_eq_nil.mp heq.symm
      exact hf
  | cons c rest ih =>
    have hs : search f (c :: rest) = (match f (c :: rest) with
        | some k => some k | none => search f rest) := rfl
    constructor
    · intro h
      rw [hs] at h
      cases hf : f (c :: rest) with
      | some k => exact ⟨[], c :: rest, rfl, by rw [hf]; rfl⟩
      | none =>
        rw [hf] at h
        obtain ⟨pre, suf, rfl, hsuf⟩ := ih.mp h
        exact ⟨c :: pre, suf, rfl, hsuf⟩
    · rintro ⟨pre, suf, heq, hf⟩
      rw [hs]
      cases hfc : f (c :: rest) with
      | some k => rfl
      | none =>
        cases pre with
        | nil =>
          simp only [List.nil_append] at heq
          subst heq
          rw [hfc] at hf
          cases hf
        | cons a pres =>
          injection heq with h1 h2
          exact ih.mpr ⟨pres, suf, h2, hf⟩

/-- The first pattern matches iff one of its three alternations matches. -/
theorem pattern1At_isSome_iff (s : List Char) :
    (pattern1At s).isSome = true ↔
      ((groupAt "figma.com/file/".toList isKeyChar s).isSome = true ∨
       (groupAt "figma.com/design/".toList isKeyChar s).isSome = true ∨
       (groupAt "figma.com/proto/".toList isKeyChar s).isSome = true) := by
  unfold pattern1At
  cases groupAt "figma.com/file/".toList isKeyChar s with
  | some k => simp
  | none =>
    cases groupAt "figma.com/design/".toList isKeyChar s with
    | some k => simp
    | none => simp

/-- Searching the first pattern succeeds exactly on the anchored
`figma.com/(file|design|proto)/<key>` shape. -/
theorem search_pattern1_iff (l : List Char) :
    (search pattern1At l).isSome = true ↔ anchoredShape1 l := by
  rw [search_isSome_iff]
  unfold anchoredShape1
  constructor
  · rintro ⟨pre, suf, rfl, h⟩
    rw [pattern1At_isSome_iff] at h
    rcases h with h | h | h
    · rw [groupAt_isSome_iff] at h
      obtain ⟨c, r, rfl, hc⟩ := h
      exact ⟨pre, "figma.com/file/", c, r, Or.inl rfl,
        (List.append_assoc _ _ _).symm, hc⟩
    · rw [groupAt_isSome_iff] at h
      obtain ⟨c, r, rfl, hc⟩ := h
      exact ⟨pre, "figma.com/design/", c, r, Or.inr (Or.inl rfl),
        (List.append_assoc _ _ _).symm, hc⟩
    · rw [groupAt_isSome_iff] at h
      obtain ⟨c, r, rfl, hc⟩ := h
      exact ⟨pre, "figma.com/proto/", c, r, Or.inr (Or.inr rfl),
        (List.append_assoc _ _ _).symm, hc⟩
  · rintro ⟨pre, kind, c, r, hk, rfl, hc⟩
    refine ⟨pre, kind.toList ++ c :: r, List.append_assoc _ _ _, ?_⟩
    rw [pattern1At_isSome_iff]
    rcases hk with rfl | rfl | rfl
    · exact Or.inl ((groupAt_isSome_iff _ _ _).mpr ⟨c, r, rfl, hc⟩)
    · exact Or.inr (Or.inl ((groupAt_isSome_iff _ _ _).mpr ⟨c, r, rfl, hc⟩))
    · exact Or.inr (Or.inr ((groupAt_isSome_iff _ _ _).mpr ⟨c, r, rfl, hc⟩))

/-- Searching the second pattern succeeds exactly on the anchored
`figma.com/community/file/<digit>` shape. -/
theorem search_pattern2_iff (l : List Char) :
    (search pattern2At l).isSome = true ↔ anchoredShape2 l := by
  rw [search_isSome_iff]
  unfold anchoredShape2
  constructor
  · rintro ⟨pre, suf, rfl, h⟩
    rw [show pattern2At suf
        = groupAt "figma.com/community/file/".toList Char.isDigit suf from rfl,
      groupAt_isSome_iff] at h
    obtain ⟨c, r, rfl, hc⟩ := h
    exact ⟨pre, c, r, (List.append_assoc _ _ _).symm, hc⟩
  · rintro ⟨pre, c, r, rfl, hc⟩
    exact ⟨pre, _, List.append_assoc _ _ _,
      (groupAt_isSome_iff _ _ _).mpr ⟨c, r, rfl, hc⟩⟩

/-- The key extraction succeeds iff one of the two searches succeeds. -/
theorem extract_figma_key_isSome_iff (url : String) :
    (extract_figma_key url).isSome = true ↔
      ((search pattern1At url.toList).isSome = true ∨
       (search pattern2At url.toList).isSome = true) := by
  unfold extract_figma_key
  cases search pattern1At url.toList with
  | some k => simp
  | none =>
    cases search pattern2At url.toList with
    | some k => simp
    | none => simp

end MainApi

/-- C6 counterexample: the URL `https://example.com/file/abc123` matches the
claim's bare path shape `/file/<alphanumeric-key>`, yet the source finds no
key (raises): both source patterns require the path shape to follow
`figma.com/`. -/
theorem c6_counterexample_bare_path_shape :
    MainApi.claimPathShape "https://example.com/file/abc123" = true ∧
    MainApi.extract_figma_key "https://example.com/file/abc123" = none :=
  ⟨rfl, rfl⟩

/-- C6 (amended): `extract_figma_key` returns a key exactly when the URL
contains `figma.com/` immediately followed by one of `file/`, `design/`,
`proto/` and at least one alphanumeric key character, or contains
`figma.com/community/file/` followed by a digit — the path shape must
follow `figma.com`, it does not stand alone; the returned key never carries
a `:version` suffix (the alphanumeric group stops at `:`), so
`https://www.figma.com/design/ABC123:45/My-App` yields `"ABC123"`, and a
URL matching no pattern, such as `https://example.com/not-figma`, raises. -/
theorem c6_key_extraction_characterized :
    (∀ url : String, (MainApi.extract_figma_key url).isSome = true ↔
        (MainApi.anchoredShape1 url.toList ∨ MainApi.anchoredShape2 url.toList)) ∧
    MainApi.extract_figma_key "https://www.figma.com/design/ABC123:45/My-App"
      = some "ABC123" ∧
    MainApi.extract_figma_key "https://example.com/not-figma" = none := by
  refine ⟨fun url => ?_, rfl, rfl⟩
  rw [MainApi.extract_figma_key_isSome_iff, MainApi.search_pattern1_iff,
    MainApi.search_pattern2_iff]
